import Mathlib

/-!
Shallow embedding of the Spectra point-of-sale application (src/app.py) and
proofs about its checkout, loyalty, redemption, staff and catalog operations.

Modelling conventions:
* SQLite tables become lists of records inside a `DB` structure; a row UPDATE
  maps over the list, an INSERT appends.
* REAL columns and Python floats become `Rat`; INTEGER columns become `Int`;
  surrogate ids become `Nat`.
* Calendar dates ("%Y-%m-%d" strings in the source) become absolute day
  numbers (`Int`); the empty date string becomes `none`.  `datetime.today()`
  becomes an explicit `today : Int` parameter; comparing `.date()` values and
  subtracting `timedelta(days=7)` is day arithmetic on these numbers, which
  ignores time of day and performs no year normalization, exactly as the
  source does.
* Each Flask handler becomes a function from the current `DB` (plus the form
  fields) to the new `DB` paired with `Except String` of its result.  The
  source opens a fresh sqlite3 connection per request with the default
  transactional isolation level; a handler that returns an error string
  before `conn.commit()` leaves the implicit transaction uncommitted, so the
  changes are discarded when the connection is dropped.  This is modelled by
  returning the original `DB` on every error path.
* `werkzeug.security.generate_password_hash` / `check_password_hash` are
  modelled abstractly: a stored credential is either a salted one-way hash of
  a password, or a plaintext string (which never verifies, since werkzeug
  rejects values that are not in its hash format).
-/

/-- Stored credential: `werkzeug` salted hash of a password, or raw text. -/
inductive Stored where
  | hashed (pw : String)
  | plain (s : String)
deriving DecidableEq, Repr

/-- Model of werkzeug generate_password_hash: a salted one-way hash. -/
def generate_password_hash (pw : String) : Stored := Stored.hashed pw

/-- Model of werkzeug check_password_hash: verifies a candidate against a
stored value; succeeds exactly when the stored value is the hash of the
candidate.  A stored plaintext is not in hash format and never verifies. -/
def check_password_hash (st : Stored) (pw : String) : Bool :=
  match st with
  | Stored.hashed p => p == pw
  | Stored.plain _ => false

/-- Row of the products table: id, name, category, brand, price REAL,
stock INTEGER. -/
structure Product where
  id : Nat
  name : String
  category : String
  brand : String
  price : Rat
  stock : Int
deriving DecidableEq, Repr

/-- Row of the customers table: name, address, phone (unique), dob,
anniversary, interests, points REAL DEFAULT 0.  Dates are day numbers,
`none` for the empty string. -/
structure Customer where
  name : String
  address : String
  phone : String
  dob : Option Int
  anniversary : Option Int
  interests : String
  points : Rat
deriving DecidableEq, Repr

/-- Row of the purchases table: phone, item, category, quantity, amount. -/
structure PurchaseRow where
  phone : String
  item : String
  category : String
  quantity : Int
  amount : Rat
deriving DecidableEq, Repr

/-- Row of the staff table: email (unique), password, role. -/
structure Staff where
  email : String
  password : Stored
  role : String
deriving DecidableEq, Repr

/-- The whole spectra.db database. -/
structure DB where
  customers : List Customer
  products : List Product
  purchases : List PurchaseRow
  staff : List Staff
deriving DecidableEq, Repr

/-- SELECT ... FROM products WHERE id=? (first matching row). -/
def findProduct (db : DB) (pid : Nat) : Option Product :=
  db.products.find? (fun p => p.id == pid)

/-- SELECT ... FROM customers WHERE phone=? (first matching row). -/
def findCustomer (db : DB) (phone : String) : Option Customer :=
  db.customers.find? (fun c => c.phone == phone)

/-- SELECT ... FROM staff WHERE email=? (first matching row). -/
def findStaff (db : DB) (email : String) : Option Staff :=
  db.staff.find? (fun st => st.email == email)

/-- UPDATE products SET stock=? WHERE id=?. -/
def updateStock (db : DB) (pid : Nat) (s : Int) : DB :=
  { db with products :=
      db.products.map (fun p => if p.id == pid then { p with stock := s } else p) }

/-- UPDATE customers SET points=? WHERE phone=?. -/
def updateCustomerPoints (db : DB) (phone : String) (v : Rat) : DB :=
  { db with customers :=
      db.customers.map (fun c => if c.phone == phone then { c with points := v } else c) }

/-- INSERT INTO purchases VALUES (...). -/
def addPurchaseRow (db : DB) (r : PurchaseRow) : DB :=
  { db with purchases := db.purchases ++ [r] }

/-- Current stock of a product, if the product exists. -/
def stockOf (db : DB) (pid : Nat) : Option Int :=
  (findProduct db pid).map (fun p => p.stock)

/-- Current points balance of a customer, if the customer exists. -/
def balanceOf (db : DB) (phone : String) : Option Rat :=
  (findCustomer db phone).map (fun c => c.points)

/-- The login handler (app.py lines 78-101): look up staff by email, verify
the stored hash; on success return the session pair (email, role). -/
def login (db : DB) (email pw : String) : Option (String × String) :=
  match findStaff db email with
  | none => none
  | some st => if check_password_hash st.password pw then some (email, st.role) else none

/-- Python str.isdigit: nonempty and all characters are digits. -/
def pyIsDigit (s : String) : Bool :=
  !s.isEmpty && s.all Char.isDigit

/-- The add_customer handler (app.py lines 111-138): validate the phone
number before touching the database; then insert, surfacing the UNIQUE
constraint violation as the duplicate-phone message. -/
def add_customer (db : DB) (nm addr phone : String) (dob ann : Option Int)
    (intr : String) : DB × Except String Unit :=
  if phone.length != 10 || !(pyIsDigit phone) then
    (db, Except.error "Invalid phone number")
  else if db.customers.any (fun c => c.phone == phone) then
    (db, Except.error "Phone number already exists")
  else
    ({ db with customers := db.customers ++
        [{ name := nm, address := addr, phone := phone, dob := dob,
           anniversary := ann, interests := intr, points := 0 }] },
     Except.ok ())

/-- The is_event_week helper (app.py lines 141-151): false for an empty
date; otherwise true when today lies in the closed day interval from
event minus 7 days to event. -/
def is_event_week (today : Int) (eventDate : Option Int) : Bool :=
  match eventDate with
  | none => false
  | some e => decide (e - 7 ≤ today) && decide (today ≤ e)

/-- The line-item loop of the purchase handler (app.py lines 188-231),
acting on the in-transaction working state.  A line with an empty or
nonpositive quantity is skipped; a line whose product id is not found is
skipped; a line whose quantity exceeds the current stock aborts the loop
with the insufficient-stock message; otherwise the stock is decremented, a
purchases row is inserted and the item total is accumulated. -/
def processLines (phone : String) : DB → List (Nat × Int) → Except String (DB × Rat)
  | db, [] => Except.ok (db, 0)
  | db, (pid, qty) :: rest =>
    if qty ≤ 0 then processLines phone db rest
    else
      match findProduct db pid with
      | none => processLines phone db rest
      | some prod =>
        if prod.stock < qty then
          Except.error ("Not enough stock for " ++ prod.name)
        else
          match processLines phone
              (addPurchaseRow (updateStock db pid (prod.stock - qty))
                { phone := phone, item := prod.name, category := prod.category,
                  quantity := qty, amount := prod.price * (qty : Rat) }) rest with
          | Except.error e => Except.error e
          | Except.ok (dbr, t) => Except.ok (dbr, prod.price * (qty : Rat) + t)

/-- The purchase handler POST branch (app.py lines 154-258): look up the
customer, run the line loop, compute earned points (times 1.5 per 10000 of
the total, times 5 in an event week) and add them to the balance.  Only a
fully successful request reaches conn.commit(); an error path leaves the
implicit transaction uncommitted, so the pre-request database is kept.  On
success the result carries the total amount and the earned points. -/
def purchase (today : Int) (db : DB) (phone : String) (lines : List (Nat × Int)) :
    DB × Except String (Rat × Rat) :=
  match findCustomer db phone with
  | none => (db, Except.error "Customer not found")
  | some cust =>
    match processLines phone db lines with
    | Except.error e => (db, Except.error e)
    | Except.ok (db1, total) =>
      let base := total / 10000 * (3 / 2)
      let earned :=
        if is_event_week today cust.dob || is_event_week today cust.anniversary then
          base * 5
        else base
      (updateCustomerPoints db1 phone (cust.points + earned),
       Except.ok (total, earned))

/-- The redeem handler (app.py lines 264-297): requires an existing
customer, a balance of at least 100 and a requested amount not above the
balance; then subtracts the points. -/
def redeem (db : DB) (phone : String) (pts : Rat) : DB × Except String Unit :=
  match findCustomer db phone with
  | none => (db, Except.error "Customer not found")
  | some cust =>
    if cust.points < 100 then (db, Except.error "Minimum 100 points required")
    else if cust.points < pts then (db, Except.error "Not enough points")
    else (updateCustomerPoints db phone (cust.points - pts), Except.ok ())

/-- The restock handler POST branch (app.py lines 349-377): requires an
existing product, then adds the submitted delta (any integer, the source
performs no sign check) to the stock column. -/
def restock (db : DB) (pid : Nat) (delta : Int) : DB × Except String Unit :=
  match findProduct db pid with
  | none => (db, Except.error "Product not found")
  | some prod => (updateStock db pid (prod.stock + delta), Except.ok ())

/-- Columns of the staff table as created by init_db (app.py lines 54-61). -/
def staffTableColumns : List String := ["id", "email", "password", "role"]

/-- Columns named by the INSERT statement of add_staff (app.py line 395). -/
def addStaffInsertColumns : List String := ["username", "password", "role"]

/-- The add_staff handler POST branch as reached by an authenticated owner
(app.py lines 380-406).  The INSERT names a column `username`, but the
staff table has no such column (its columns are staffTableColumns), so
sqlite raises an OperationalError on every attempt; the bare except clause
maps this to the "Staff already exists" message and no row is ever
inserted.  Had the column existed, the row would have stored the raw
password (the handler never calls generate_password_hash). -/
def add_staff (db : DB) (username pw role : String) : DB × Except String Unit :=
  if addStaffInsertColumns.all (fun c => staffTableColumns.contains c) then
    ({ db with staff := db.staff ++
        [{ email := username, password := Stored.plain pw, role := role }] },
     Except.ok ())
  else
    (db, Except.error "Staff already exists")

/-- An operation applied to the store: a checkout request or a restock. -/
inductive Op where
  | checkout (phone : String) (lines : List (Nat × Int))
  | restockOp (pid : Nat) (delta : Int)
deriving DecidableEq, Repr

/-- Run a sequence of operations, requiring every one of them to succeed
(a failed checkout or restock yields `none`). -/
def applyOps (today : Int) : DB → List Op → Option DB
  | db, [] => some db
  | db, Op.checkout phone lines :: rest =>
    match purchase today db phone lines with
    | (db1, Except.ok _) => applyOps today db1 rest
    | (_, Except.error _) => none
  | db, Op.restockOp pid delta :: rest =>
    match restock db pid delta with
    | (db1, Except.ok _) => applyOps today db1 rest
    | (_, Except.error _) => none

/-- Total quantity of product `pid` over the live lines (positive quantity)
of one request. -/
def lineQty (pid : Nat) : List (Nat × Int) → Int
  | [] => 0
  | (p, q) :: rest => (if p = pid ∧ 0 < q then q else 0) + lineQty pid rest

/-- Total quantity of product `pid` checked out across a sequence of ops. -/
def soldSum (pid : Nat) : List Op → Int
  | [] => 0
  | Op.checkout _ lines :: rest => lineQty pid lines + soldSum pid rest
  | Op.restockOp _ _ :: rest => soldSum pid rest

/-- Total restock delta applied to product `pid` across a sequence of ops. -/
def restockSum (pid : Nat) : List Op → Int
  | [] => 0
  | Op.checkout _ _ :: rest => restockSum pid rest
  | Op.restockOp p d :: rest => (if p = pid then d else 0) + restockSum pid rest

/-- An op is delta-nonnegative when it is not a restock with negative delta. -/
def nonnegDelta : Op → Bool
  | Op.checkout _ _ => true
  | Op.restockOp _ d => decide (0 ≤ d)

/-! ### Concrete sample data used by witnesses and counterexamples -/

def custC1 : Customer :=
  { name := "Asha", address := "12 Lake Road", phone := "9876543210",
    dob := none, anniversary := none, interests := "tea", points := 0 }

def prodC1 : Product :=
  { id := 1, name := "Tea", category := "Grocery", brand := "BrandX",
    price := 50, stock := 3 }

def dbC1 : DB := { customers := [custC1], products := [prodC1], purchases := [], staff := [] }

def custC2 : Customer :=
  { name := "Ravi", address := "4 Hill Street", phone := "9876543210",
    dob := none, anniversary := none, interests := "", points := 0 }

def prodC2 : Product :=
  { id := 1, name := "Soap", category := "Care", brand := "BrandY",
    price := 10, stock := 5 }

def dbC2 : DB := { customers := [custC2], products := [prodC2], purchases := [], staff := [] }

def custC3 : Customer :=
  { name := "Jui", address := "8 Sea View", phone := "9876543211",
    dob := none, anniversary := none, interests := "", points := 0 }

def prodC3 : Product :=
  { id := 1, name := "Rice", category := "Grocery", brand := "BrandZ",
    price := 50, stock := 5 }

def dbC3 : DB := { customers := [custC3], products := [prodC3], purchases := [], staff := [] }

def prodC4 : Product :=
  { id := 1, name := "Oil", category := "Grocery", brand := "BrandW",
    price := 10, stock := 0 }

def dbC4 : DB := { customers := [], products := [prodC4], purchases := [], staff := [] }

def custC4 : Customer :=
  { name := "Mina", address := "7 Fort Lane", phone := "9123456789",
    dob := none, anniversary := none, interests := "", points := 0 }

def prodC4w : Product :=
  { id := 1, name := "Milk", category := "Dairy", brand := "BrandV",
    price := 10, stock := 10 }

def dbC4w : DB := { customers := [custC4], products := [prodC4w], purchases := [], staff := [] }

def opsC4 : List Op := [Op.checkout "9123456789" [(1, 3)], Op.restockOp 1 4]

def custC5 : Customer :=
  { name := "Lena", address := "9 Park Way", phone := "9988776655",
    dob := none, anniversary := none, interests := "", points := 0 }

def prodC5 : Product :=
  { id := 1, name := "TV", category := "Electronics", brand := "BrandU",
    price := 25000, stock := 10 }

def dbC5 : DB := { customers := [custC5], products := [prodC5], purchases := [], staff := [] }

def cust80 : Customer :=
  { name := "Omar", address := "1 Gate Row", phone := "9000000001",
    dob := none, anniversary := none, interests := "", points := 80 }

def db80 : DB := { customers := [cust80], products := [], purchases := [], staff := [] }

def cust200 : Customer :=
  { name := "Pia", address := "2 Gate Row", phone := "9000000002",
    dob := none, anniversary := none, interests := "", points := 200 }

def db200 : DB := { customers := [cust200], products := [], purchases := [], staff := [] }

def cust150 : Customer :=
  { name := "Noor", address := "3 Gate Row", phone := "9000000003",
    dob := none, anniversary := none, interests := "", points := 150 }

def db150 : DB := { customers := [cust150], products := [], purchases := [], staff := [] }

def dbOwner : DB :=
  { customers := [], products := [], purchases := [],
    staff := [{ email := "owner@spectra.com",
                password := generate_password_hash "1234", role := "owner" }] }

def dbC9 : DB := { customers := [], products := [], purchases := [], staff := [] }

/-! ### Basic lemmas about table lookups and updates -/

theorem find_map_pres {α : Type} (g : α → α) (q : α → Bool)
    (hq : ∀ a, q (g a) = q a) (xs : List α) :
    (xs.map g).find? q = (xs.find? q).map g := by
  induction xs with
  | nil => rfl
  | cons x xs ih =>
    simp only [List.map_cons]
    cases hx : q x with
    | true =>
      rw [List.find?_cons_of_pos _ (by rw [hq]; exact hx),
          List.find?_cons_of_pos _ hx]
      rfl
    | false =>
      rw [List.find?_cons_of_neg _ (by rw [hq]; simp [hx]),
          List.find?_cons_of_neg _ (by simp [hx])]
      exact ih

theorem findProduct_id (db : DB) (i : Nat) (p : Product)
    (h : findProduct db i = some p) : p.id = i := by
  have h2 : db.products.find? (fun q => q.id == i) = some p := h
  have h3 := List.find?_some h2
  simpa using h3

theorem findCustomer_phone (db : DB) (ph : String) (c : Customer)
    (h : findCustomer db ph = some c) : c.phone = ph := by
  have h2 : db.customers.find? (fun q => q.phone == ph) = some c := h
  have h3 := List.find?_some h2
  simpa using h3

theorem findProduct_updateStock (db : DB) (j : Nat) (s : Int) (i : Nat) :
    findProduct (updateStock db j s) i
      = (findProduct db i).map (fun p => if p.id == j then { p with stock := s } else p) := by
  show (db.products.map _).find? _ = _
  exact find_map_pres _ _ (fun a => by cases h : a.id == j <;> simp [h]) _

theorem findProduct_updateStock_ne (db : DB) (j i : Nat) (s : Int) (h : i ≠ j) :
    findProduct (updateStock db j s) i = findProduct db i := by
  rw [findProduct_updateStock]
  cases hfp : findProduct db i with
  | none => rfl
  | some p =>
    have hpi : p.id = i := findProduct_id db i p hfp
    simp [hpi, h]

theorem findProduct_updateStock_self (db : DB) (i : Nat) (p : Product) (s : Int)
    (h : findProduct db i = some p) :
    findProduct (updateStock db i s) i = some { p with stock := s } := by
  rw [findProduct_updateStock, h]
  have hpi : p.id = i := findProduct_id db i p h
  simp [hpi]

theorem findProduct_addRow (db : DB) (r : PurchaseRow) (i : Nat) :
    findProduct (addPurchaseRow db r) i = findProduct db i := rfl

theorem stockOf_updatePoints (db : DB) (ph : String) (v : Rat) (i : Nat) :
    stockOf (updateCustomerPoints db ph v) i = stockOf db i := rfl

theorem findCustomer_updatePoints (db : DB) (ph : String) (v : Rat) (ph2 : String) :
    findCustomer (updateCustomerPoints db ph v) ph2
      = (findCustomer db ph2).map
          (fun c => if c.phone == ph then { c with points := v } else c) := by
  show (db.customers.map _).find? _ = _
  exact find_map_pres _ _ (fun a => by cases h : a.phone == ph <;> simp [h]) _

theorem balanceOf_updatePoints_self (db : DB) (ph : String) (v : Rat) (c : Customer)
    (h : findCustomer db ph = some c) :
    balanceOf (updateCustomerPoints db ph v) ph = some v := by
  unfold balanceOf
  rw [findCustomer_updatePoints, h]
  have hc : c.phone = ph := findCustomer_phone db ph c h
  simp [hc]

/-! ### Lemmas about the purchase line loop -/

theorem processLines_insufficient (phone : String) (pid : Nat) (qty : Int)
    (lines : List (Nat × Int)) :
    ∀ (db : DB) (prod : Product),
      (pid, qty) ∈ lines → 0 < qty →
      findProduct db pid = some prod → prod.stock < qty →
      ∃ nm, processLines phone db lines = Except.error ("Not enough stock for " ++ nm) := by
  induction lines with
  | nil =>
    intro db prod hmem
    simp at hmem
  | cons head rest ih =>
    intro db prod hmem hq hp hlt
    obtain ⟨p0, q0⟩ := head
    rcases List.mem_cons.mp hmem with heq | hmemr
    · obtain ⟨h1, h2⟩ := Prod.mk.injEq .. ▸ heq
      subst h1
      subst h2
      refine ⟨prod.name, ?_⟩
      simp only [processLines]
      rw [if_neg (not_le.mpr hq), hp]
      exact if_pos hlt
    · by_cases hq0 : q0 ≤ 0
      · obtain ⟨nm, hnm⟩ := ih db prod hmemr hq hp hlt
        refine ⟨nm, ?_⟩
        simp only [processLines]
        rw [if_pos hq0]
        exact hnm
      · cases hfp : findProduct db p0 with
        | none =>
          obtain ⟨nm, hnm⟩ := ih db prod hmemr hq hp hlt
          refine ⟨nm, ?_⟩
          simp only [processLines]
          rw [if_neg hq0, hfp]
          exact hnm
        | some prod0 =>
          by_cases hst : prod0.stock < q0
          · refine ⟨prod0.name, ?_⟩
            simp only [processLines]
            rw [if_neg hq0, hfp]
            exact if_pos hst
          · have hq0pos : 0 < q0 := lt_of_not_le hq0
            by_cases hpp : p0 = pid
            · subst hpp
              have hpe : prod0 = prod := by
                rw [hp] at hfp
                exact (Option.some.injEq .. ▸ hfp.symm)
              subst hpe
              have hp2 : findProduct
                  (addPurchaseRow (updateStock db p0 (prod0.stock - q0))
                    { phone := phone, item := prod0.name, category := prod0.category,
                      quantity := q0, amount := prod0.price * (q0 : Rat) }) p0
                  = some { prod0 with stock := prod0.stock - q0 } := by
                rw [findProduct_addRow]
                exact findProduct_updateStock_self db p0 prod0 _ hp
              have hlt2 : ({ prod0 with stock := prod0.stock - q0 } : Product).stock < qty := by
                simp only
                omega
              obtain ⟨nm, hnm⟩ := ih _ _ hmemr hq hp2 hlt2
              refine ⟨nm, ?_⟩
              simp only [processLines]
              rw [if_neg hq0, hfp]
              refine Eq.trans (if_neg hst) ?_
              rw [hnm]
            · have hp2 : findProduct
                  (addPurchaseRow (updateStock db p0 (prod0.stock - q0))
                    { phone := phone, item := prod0.name, category := prod0.category,
                      quantity := q0, amount := prod0.price * (q0 : Rat) }) pid
                  = some prod := by
                rw [findProduct_addRow]
                rw [findProduct_updateStock_ne db p0 pid _ (fun h => hpp h.symm)]
                exact hp
              obtain ⟨nm, hnm⟩ := ih _ _ hmemr hq hp2 hlt
              refine ⟨nm, ?_⟩
              simp only [processLines]
              rw [if_neg hq0, hfp]
              refine Eq.trans (if_neg hst) ?_
              rw [hnm]

theorem processLines_stock (phone : String) (pid : Nat) (lines : List (Nat × Int)) :
    ∀ (db dbf : DB) (total : Rat) (s : Int),
      processLines phone db lines = Except.ok (dbf, total) →
      stockOf db pid = some s →
      stockOf dbf pid = some (s - lineQty pid lines)
        ∧ (0 ≤ s → 0 ≤ s - lineQty pid lines) := by
  induction lines with
  | nil =>
    intro db dbf total s hok hs
    simp only [processLines, Except.ok.injEq, Prod.mk.injEq] at hok
    obtain ⟨h1, h2⟩ := hok
    subst h1
    simpa [lineQty] using hs
  | cons head rest ih =>
    intro db dbf total s hok hs
    obtain ⟨p0, q0⟩ := head
    simp only [processLines] at hok
    by_cases hq0 : q0 ≤ 0
    · rw [if_pos hq0] at hok
      have hres := ih db dbf total s hok hs
      have hz : lineQty pid ((p0, q0) :: rest) = lineQty pid rest := by
        simp only [lineQty]
        rw [if_neg (by omega : ¬(p0 = pid ∧ 0 < q0))]
        omega
      rw [hz]
      exact hres
    · rw [if_neg hq0] at hok
      have hq0pos : 0 < q0 := lt_of_not_le hq0
      split at hok
      next hfp =>
        have hpne : p0 ≠ pid := by
          intro h
          subst h
          unfold stockOf at hs
          rw [hfp] at hs
          simp at hs
        have hres := ih db dbf total s hok hs
        have hz : lineQty pid ((p0, q0) :: rest) = lineQty pid rest := by
          simp only [lineQty]
          rw [if_neg (by tauto : ¬(p0 = pid ∧ 0 < q0))]
          omega
        rw [hz]
        exact hres
      next prod0 hfp =>
        split at hok
        next hst => exact Except.noConfusion hok
        next hst =>
          split at hok
          next e hrec => exact Except.noConfusion hok
          next db3 t hrec =>
            simp only [Except.ok.injEq, Prod.mk.injEq] at hok
            obtain ⟨h1, h2⟩ := hok
            subst h1
            by_cases hpp : p0 = pid
            · subst hpp
              have hpe : prod0.stock = s := by
                unfold stockOf at hs
                rw [hfp] at hs
                simpa using hs
              have hs2 : stockOf (addPurchaseRow (updateStock db p0 (prod0.stock - q0))
                  { phone := phone, item := prod0.name, category := prod0.category,
                    quantity := q0, amount := prod0.price * (q0 : Rat) }) p0
                  = some (s - q0) := by
                unfold stockOf
                rw [findProduct_addRow, findProduct_updateStock_self db p0 prod0 _ hfp]
                simp [hpe]
              have hres := ih _ db3 t (s - q0) hrec hs2
              have hz : lineQty p0 ((p0, q0) :: rest) = q0 + lineQty p0 rest := by
                simp [lineQty, hq0pos]
              rw [hz]
              constructor
              · rw [show s - (q0 + lineQty p0 rest) = s - q0 - lineQty p0 rest by omega]
                exact hres.1
              · intro _
                have hst2 : ¬prod0.stock < q0 := hst
                have hge : 0 ≤ s - q0 := by omega
                have := hres.2 hge
                omega
            · have hs2 : stockOf (addPurchaseRow (updateStock db p0 (prod0.stock - q0))
                  { phone := phone, item := prod0.name, category := prod0.category,
                    quantity := q0, amount := prod0.price * (q0 : Rat) }) pid
                  = some s := by
                unfold stockOf
                rw [findProduct_addRow,
                    findProduct_updateStock_ne db p0 pid _ (fun h => hpp h.symm)]
                exact hs
              have hres := ih _ db3 t s hrec hs2
              have hz : lineQty pid ((p0, q0) :: rest) = lineQty pid rest := by
                simp only [lineQty]
                rw [if_neg (by tauto : ¬(p0 = pid ∧ 0 < q0))]
                omega
              rw [hz]
              exact hres

theorem purchase_ok_stock (today : Int) (db dbf : DB) (phone : String)
    (lines : List (Nat × Int)) (res : Rat × Rat) (pid : Nat) (s : Int)
    (hok : purchase today db phone lines = (dbf, Except.ok res))
    (hs : stockOf db pid = some s) :
    stockOf dbf pid = some (s - lineQty pid lines)
      ∧ (0 ≤ s → 0 ≤ s - lineQty pid lines) := by
  simp only [purchase] at hok
  split at hok
  next hc => simp at hok
  next cust hc =>
    split at hok
    next e hpl => simp at hok
    next db1 total hpl =>
      simp only [Prod.mk.injEq] at hok
      obtain ⟨h1, h2⟩ := hok
      subst h1
      rw [stockOf_updatePoints]
      exact processLines_stock phone pid lines db db1 total s hpl hs

theorem restock_ok_stock (db dbf : DB) (p0 : Nat) (d : Int) (pid : Nat) (s : Int)
    (hok : restock db p0 d = (dbf, Except.ok ()))
    (hs : stockOf db pid = some s) :
    stockOf dbf pid = some (s + if p0 = pid then d else 0) := by
  simp only [restock] at hok
  split at hok
  next hfp => simp at hok
  next prod0 hfp =>
    simp only [Prod.mk.injEq] at hok
    obtain ⟨h1, h2⟩ := hok
    subst h1
    by_cases hpp : p0 = pid
    · subst hpp
      have hpe : prod0.stock = s := by
        unfold stockOf at hs
        rw [hfp] at hs
        simpa using hs
      unfold stockOf
      rw [findProduct_updateStock_self db p0 prod0 _ hfp]
      simp [hpe]
    · unfold stockOf
      rw [findProduct_updateStock_ne db p0 pid _ (fun h => hpp h.symm)]
      rw [if_neg hpp, add_zero]
      exact hs

theorem applyOps_stock (today : Int) (pid : Nat) (ops : List Op) :
    ∀ (db dbf : DB) (s : Int),
      applyOps today db ops = some dbf →
      stockOf db pid = some s →
      stockOf dbf pid = some (s - soldSum pid ops + restockSum pid ops) := by
  induction ops with
  | nil =>
    intro db dbf s hrun hs
    simp only [applyOps, Option.some.injEq] at hrun
    subst hrun
    simpa [soldSum, restockSum] using hs
  | cons op rest ih =>
    intro db dbf s hrun hs
    cases op with
    | checkout phone lines =>
      simp only [applyOps] at hrun
      split at hrun
      next db1 r hpur =>
        have hstep := purchase_ok_stock today db db1 phone lines r pid s hpur hs
        have := ih db1 dbf (s - lineQty pid lines) hrun hstep.1
        rw [this]
        simp only [soldSum, restockSum]
        congr 1
        omega
      next db1 e hpur => exact Option.noConfusion hrun
    | restockOp p0 d =>
      simp only [applyOps] at hrun
      split at hrun
      next db1 r hres =>
        have hstep := restock_ok_stock db db1 p0 d pid s hres hs
        have := ih db1 dbf _ hrun hstep
        rw [this]
        simp only [soldSum, restockSum]
        congr 1
        by_cases hpp : p0 = pid
        · simp [hpp]
          omega
        · simp [hpp]
      next db1 e hres => exact Option.noConfusion hrun

theorem applyOps_nonneg (today : Int) (pid : Nat) (ops : List Op) :
    ∀ (db dbf : DB) (s : Int),
      applyOps today db ops = some dbf →
      stockOf db pid = some s → 0 ≤ s →
      (∀ op ∈ ops, nonnegDelta op = true) →
      ∃ s2, stockOf dbf pid = some s2 ∧ 0 ≤ s2 := by
  induction ops with
  | nil =>
    intro db dbf s hrun hs hge _
    simp only [applyOps, Option.some.injEq] at hrun
    subst hrun
    exact ⟨s, hs, hge⟩
  | cons op rest ih =>
    intro db dbf s hrun hs hge hnn
    cases op with
    | checkout phone lines =>
      simp only [applyOps] at hrun
      split at hrun
      next db1 r hpur =>
        have hstep := purchase_ok_stock today db db1 phone lines r pid s hpur hs
        exact ih db1 dbf _ hrun hstep.1 (hstep.2 hge)
          (fun op hm => hnn op (List.mem_cons_of_mem _ hm))
      next db1 e hpur => exact Option.noConfusion hrun
    | restockOp p0 d =>
      simp only [applyOps] at hrun
      split at hrun
      next db1 r hres =>
        have hstep := restock_ok_stock db db1 p0 d pid s hres hs
        have hd : 0 ≤ d := by
          have := hnn (Op.restockOp p0 d) (List.mem_cons_self _ _)
          simpa [nonnegDelta] using this
        have hge2 : 0 ≤ s + if p0 = pid then d else 0 := by
          by_cases hpp : p0 = pid <;> simp [hpp] <;> omega
        exact ih db1 dbf _ hrun hstep hge2
          (fun op hm => hnn op (List.mem_cons_of_mem _ hm))
      next db1 e hres => exact Option.noConfusion hrun

theorem applyOps_append (today : Int) (l1 l2 : List Op) :
    ∀ (db dbf : DB), applyOps today db (l1 ++ l2) = some dbf →
      ∃ dbm, applyOps today db l1 = some dbm ∧ applyOps today dbm l2 = some dbf := by
  induction l1 with
  | nil =>
    intro db dbf hrun
    exact ⟨db, rfl, hrun⟩
  | cons op rest ih =>
    intro db dbf hrun
    cases op with
    | checkout phone lines =>
      simp only [List.cons_append, applyOps] at hrun ⊢
      split at hrun
      next db1 r hpur =>
        exact ih db1 dbf hrun
      next db1 e hpur => exact Option.noConfusion hrun
    | restockOp p0 d =>
      simp only [List.cons_append, applyOps] at hrun ⊢
      split at hrun
      next db1 r hres =>
        exact ih db1 dbf hrun
      next db1 e hres => exact Option.noConfusion hrun

theorem purchase_processLines_error (today : Int) (db : DB) (phone : String)
    (lines : List (Nat × Int)) (cust : Customer) (e : String)
    (hc : findCustomer db phone = some cust)
    (hpl : processLines phone db lines = Except.error e) :
    purchase today db phone lines = (db, Except.error e) := by
  simp only [purchase]
  split
  next hc2 => rw [hc2] at hc; cases hc
  next cust2 hc2 =>
    split
    next e2 hpl2 =>
      rw [hpl] at hpl2
      rw [Except.error.injEq] at hpl2
      rw [hpl2]
    next db1 total hpl2 =>
      rw [hpl] at hpl2
      cases hpl2

/-! ### Claim theorems -/

/-- Claim C1: for a checkout request by an existing customer that contains a
live line (positive quantity, existing product) whose quantity exceeds the
current stock of that product, the whole checkout fails with the
insufficient-stock error and the database is unchanged: every stock value,
including those of products on earlier lines, is as before, and no purchases
row is written.  (The handler returns before conn.commit(), so the implicit
transaction is discarded.) -/
theorem insufficient_stock_fails_whole_checkout (today : Int) (db : DB)
    (phone : String) (lines : List (Nat × Int)) (cust : Customer)
    (pid : Nat) (qty : Int) (prod : Product)
    (hc : findCustomer db phone = some cust)
    (hmem : (pid, qty) ∈ lines) (hq : 0 < qty)
    (hp : findProduct db pid = some prod) (hlt : prod.stock < qty) :
    (purchase today db phone lines).1 = db
      ∧ ∃ nm, (purchase today db phone lines).2
          = Except.error ("Not enough stock for " ++ nm) := by
  obtain ⟨nm, hnm⟩ := processLines_insufficient phone pid qty lines db prod hmem hq hp hlt
  have hres := purchase_processLines_error today db phone lines cust _ hc hnm
  rw [hres]
  exact ⟨rfl, nm, rfl⟩

theorem insufficient_stock_fails_whole_checkout_witness :
    (purchase 0 dbC1 "9876543210" [(1, 5)]).1 = dbC1
      ∧ ∃ nm, (purchase 0 dbC1 "9876543210" [(1, 5)]).2
          = Except.error ("Not enough stock for " ++ nm) :=
  insufficient_stock_fails_whole_checkout 0 dbC1 "9876543210" [(1, 5)] custC1 1 5 prodC1
    rfl (by decide) (by decide) rfl (by decide)

/-- Claim C6: for a nonempty event date, is_event_week is true exactly when
today lies in the inclusive day interval from the event date minus 7 days to
the event date; dates are compared as whole calendar days (time of day does
not exist in the day-number model) and the stored date is used as is, with
no year normalization. -/
theorem is_event_week_iff (today e : Int) :
    is_event_week today (some e) = true ↔ (e - 7 ≤ today ∧ today ≤ e) := by
  simp [is_event_week]

/-- Claim C9: an add-customer request whose phone is not a string of exactly
10 digits is rejected immediately with the validation error and the whole
database, in particular the customers table, is exactly as before. -/
theorem invalid_phone_rejected (db : DB) (nm addr phone intr : String)
    (dob ann : Option Int)
    (h : ¬(phone.length = 10 ∧ phone.all Char.isDigit = true)) :
    add_customer db nm addr phone dob ann intr
      = (db, Except.error "Invalid phone number") := by
  have hcond : (phone.length != 10 || !(pyIsDigit phone)) = true := by
    by_cases hl : phone.length = 10
    · have hall : phone.all Char.isDigit = false := by
        by_cases hd : phone.all Char.isDigit = true
        · exact absurd ⟨hl, hd⟩ h
        · simp only [Bool.not_eq_true] at hd
          exact hd
      simp [pyIsDigit, hall]
    · simp [hl]
  simp only [add_customer]
  rw [if_pos hcond]

theorem invalid_phone_rejected_witness :
    add_customer dbC9 "Asha" "12 Lake Road" "123" none none "tea"
      = (dbC9, Except.error "Invalid phone number") :=
  invalid_phone_rejected dbC9 "Asha" "12 Lake Road" "123" "tea" none none (by decide)

/-- Claim C7: for an existing customer, redeem fails with the minimum-100
message when the balance is below 100 and with the not-enough-points message
when the requested amount exceeds the balance, leaving the database
unchanged in both cases; otherwise it succeeds and the new balance is the
old balance minus the redeemed points. -/
theorem redeem_spec (db : DB) (phone : String) (cust : Customer) (p : Rat)
    (hc : findCustomer db phone = some cust) :
    (cust.points < 100 →
        redeem db phone p = (db, Except.error "Minimum 100 points required"))
    ∧ (100 ≤ cust.points → cust.points < p →
        redeem db phone p = (db, Except.error "Not enough points"))
    ∧ (100 ≤ cust.points → p ≤ cust.points →
        (redeem db phone p).2 = Except.ok ()
          ∧ balanceOf (redeem db phone p).1 phone = some (cust.points - p)) := by
  have hred : ∀ P : DB × Except String Unit → Prop,
      P (if cust.points < 100 then (db, Except.error "Minimum 100 points required")
         else if cust.points < p then (db, Except.error "Not enough points")
         else (updateCustomerPoints db phone (cust.points - p), Except.ok ())) →
      P (redeem db phone p) := by
    intro P hP
    simp only [redeem]
    split
    next hc2 => rw [hc2] at hc; cases hc
    next cust2 hc2 =>
      rw [hc] at hc2
      injection hc2 with hcc
      rw [← hcc]
      exact hP
  refine ⟨?_, ?_, ?_⟩
  · intro h1
    refine hred (fun r => r = (db, Except.error "Minimum 100 points required")) ?_
    rw [if_pos h1]
  · intro h1 h2
    refine hred (fun r => r = (db, Except.error "Not enough points")) ?_
    rw [if_neg (not_lt.mpr h1), if_pos h2]
  · intro h1 h2
    refine hred (fun r => r.2 = Except.ok ()
      ∧ balanceOf r.1 phone = some (cust.points - p)) ?_
    rw [if_neg (not_lt.mpr h1), if_neg (not_lt.mpr h2)]
    exact ⟨rfl, balanceOf_updatePoints_self db phone _ cust hc⟩

theorem redeem_spec_witness :
    redeem db80 "9000000001" 50 = (db80, Except.error "Minimum 100 points required")
    ∧ (redeem db200 "9000000002" 150).2 = Except.ok ()
    ∧ balanceOf (redeem db200 "9000000002" 150).1 "9000000002"
        = some (cust200.points - 150) :=
  ⟨(redeem_spec db80 "9000000001" cust80 50 rfl).1 (by decide),
   (redeem_spec db200 "9000000002" cust200 150 rfl).2.2 (by decide) (by decide)⟩

/-- Claim C10 (implicit): for an existing customer with balance at least 100
and a negative requested amount p, redeem succeeds (a negative p is never
greater than the balance), the new balance is the old balance minus p, and
that new balance is strictly greater than the old one — the redeem handler
can increase a points balance. -/
theorem redeem_negative_points_increases_balance (db : DB) (phone : String)
    (cust : Customer) (p : Rat)
    (hc : findCustomer db phone = some cust)
    (hbal : 100 ≤ cust.points) (hneg : p < 0) :
    (redeem db phone p).2 = Except.ok ()
    ∧ balanceOf (redeem db phone p).1 phone = some (cust.points - p)
    ∧ cust.points < cust.points - p := by
  have hle : p ≤ cust.points := le_trans hneg.le (le_trans (by norm_num) hbal)
  have hres := (redeem_spec db phone cust p hc).2.2 hbal hle
  exact ⟨hres.1, hres.2, by linarith⟩

theorem redeem_negative_points_increases_balance_witness :
    (redeem db150 "9000000003" (-10)).2 = Except.ok ()
    ∧ balanceOf (redeem db150 "9000000003" (-10)).1 "9000000003"
        = some (cust150.points - (-10))
    ∧ cust150.points < cust150.points - (-10) :=
  redeem_negative_points_increases_balance db150 "9000000003" cust150 (-10)
    rfl (by decide) (by decide)

/-- Claim C5: for every successful checkout the earned points are the total
divided by 10000, times 1.5, times 5 exactly when today falls in the
birthday or anniversary event week; in particular a total of 50000 yields
75/2 = 37.5 points in an event week and 15/2 = 7.5 points otherwise. -/
theorem earned_points_formula (today : Int) (db dbf : DB) (phone : String)
    (lines : List (Nat × Int)) (cust : Customer) (total pts : Rat)
    (hc : findCustomer db phone = some cust)
    (hok : purchase today db phone lines = (dbf, Except.ok (total, pts))) :
    pts = total / 10000 * (3 / 2)
        * (if is_event_week today cust.dob || is_event_week today cust.anniversary
           then 5 else 1)
    ∧ (total = 50000 →
        pts = if is_event_week today cust.dob || is_event_week today cust.anniversary
              then 75 / 2 else 15 / 2) := by
  simp only [purchase] at hok
  split at hok
  next hc2 => simp at hok
  next cust2 hc2 =>
    rw [hc] at hc2
    injection hc2 with hcc
    subst hcc
    split at hok
    next e hpl => simp at hok
    next db1 t1 hpl =>
      simp only [Prod.mk.injEq, Except.ok.injEq] at hok
      obtain ⟨hdb, ht, hpts⟩ := hok
      subst ht
      subst hpts
      constructor
      · cases hev : is_event_week today cust.dob || is_event_week today cust.anniversary
        · simp [hev]
        · simp [hev]
      · intro htot
        subst htot
        cases hev : is_event_week today cust.dob || is_event_week today cust.anniversary
        · simp [hev]
          norm_num
        · simp [hev]
          norm_num

theorem earned_points_formula_witness :
    (prodC5.price * ((2 : Int) : Rat) + 0) / 10000 * (3 / 2)
      = (prodC5.price * ((2 : Int) : Rat) + 0) / 10000 * (3 / 2)
        * (if is_event_week 0 custC5.dob || is_event_week 0 custC5.anniversary
           then 5 else 1) :=
  (earned_points_formula 0 dbC5 (purchase 0 dbC5 "9988776655" [(1, 2)]).1 "9988776655"
    [(1, 2)] custC5 (prodC5.price * ((2 : Int) : Rat) + 0)
    ((prodC5.price * ((2 : Int) : Rat) + 0) / 10000 * (3 / 2)) rfl (by rfl)).1

theorem processLines_skip_missing (phone : String) (db : DB) (pid : Nat)
    (qty : Int) (lines : List (Nat × Int)) (hp : findProduct db pid = none) :
    processLines phone db ((pid, qty) :: lines) = processLines phone db lines := by
  simp only [processLines]
  by_cases hq : qty ≤ 0
  · rw [if_pos hq]
  · rw [if_neg hq, hp]

/-- Claim C3 (amended): a line whose product reference does not exist in the
catalog is silently skipped — the checkout behaves exactly as if the line
were absent; it does not fail with a not-found error. -/
theorem missing_product_line_skipped (today : Int) (db : DB) (phone : String)
    (pid : Nat) (qty : Int) (lines : List (Nat × Int))
    (hp : findProduct db pid = none) :
    purchase today db phone ((pid, qty) :: lines) = purchase today db phone lines := by
  simp only [purchase, processLines_skip_missing phone db pid qty lines hp]

theorem missing_product_line_skipped_witness :
    purchase 0 dbC3 "9876543211" [(2, 7)] = purchase 0 dbC3 "9876543211" [] :=
  missing_product_line_skipped 0 dbC3 "9876543211" 2 7 [] rfl

/-- Claim C3 (counterexample): the request [(2, 1), (1, 2)] against a catalog
holding only product 1 (stock 5) contains a line whose product (id 2) does
not exist, yet the checkout succeeds — no not-found failure — and stock is
decremented for the existing line, from 5 to 3. -/
theorem missing_product_not_found_cex :
    (∃ r, (purchase 0 dbC3 "9876543211" [(2, 1), (1, 2)]).2 = Except.ok r)
    ∧ stockOf (purchase 0 dbC3 "9876543211" [(2, 1), (1, 2)]).1 1 = some 3 :=
  ⟨⟨_, rfl⟩, by rfl⟩

theorem processLines_cons_ok (phone : String) (db : DB) (pid : Nat) (qty : Int)
    (rest : List (Nat × Int)) (prod : Product)
    (hq : 0 < qty) (hp : findProduct db pid = some prod) (hs : qty ≤ prod.stock) :
    processLines phone db ((pid, qty) :: rest)
      = (processLines phone
          (addPurchaseRow (updateStock db pid (prod.stock - qty))
            { phone := phone, item := prod.name, category := prod.category,
              quantity := qty, amount := prod.price * (qty : Rat) }) rest).map
          (fun pr => (pr.1, prod.price * (qty : Rat) + pr.2)) := by
  simp only [processLines]
  rw [if_neg (not_le.mpr hq), hp]
  refine Eq.trans (if_neg (not_lt.mpr hs)) ?_
  cases processLines phone
      (addPurchaseRow (updateStock db pid (prod.stock - qty))
        { phone := phone, item := prod.name, category := prod.category,
          quantity := qty, amount := prod.price * (qty : Rat) }) rest with
  | error e => rfl
  | ok pr => rfl

/-- Claim C2 (amended): a request in which the same product appears on two
lines is not rejected; both occurrences are processed in order, the second
against the stock left by the first, so the stock ends at its initial value
minus both quantities and the total covers both occurrences. -/
theorem duplicate_lines_processed (today : Int) (db : DB) (phone : String)
    (cust : Customer) (prod : Product) (pid : Nat) (q1 q2 : Int)
    (hc : findCustomer db phone = some cust)
    (hp : findProduct db pid = some prod)
    (h1 : 0 < q1) (h2 : 0 < q2)
    (hs1 : q1 ≤ prod.stock) (hs2 : q2 ≤ prod.stock - q1) :
    ∃ dbf pts, purchase today db phone [(pid, q1), (pid, q2)]
        = (dbf, Except.ok (prod.price * (q1 : Rat) + (prod.price * (q2 : Rat) + 0), pts))
      ∧ stockOf dbf pid = some (prod.stock - q1 - q2) := by
  have hfp2 : findProduct
      (addPurchaseRow (updateStock db pid (prod.stock - q1))
              { phone := phone, item := prod.name, category := prod.category,
                quantity := q1, amount := prod.price * (q1 : Rat) }) pid
      = some { prod with stock := prod.stock - q1 } := by
    rw [findProduct_addRow]
    exact findProduct_updateStock_self db pid prod _ hp
  have hpl : processLines phone db [(pid, q1), (pid, q2)]
      = Except.ok
          (addPurchaseRow
            (updateStock
              (addPurchaseRow (updateStock db pid (prod.stock - q1))
              { phone := phone, item := prod.name, category := prod.category,
                quantity := q1, amount := prod.price * (q1 : Rat) })
              pid (prod.stock - q1 - q2))
            { phone := phone, item := prod.name, category := prod.category,
              quantity := q2, amount := prod.price * (q2 : Rat) },
           prod.price * (q1 : Rat) + (prod.price * (q2 : Rat) + 0)) := by
    rw [processLines_cons_ok phone db pid q1 [(pid, q2)] prod h1 hp hs1]
    rw [processLines_cons_ok phone _ pid q2 [] { prod with stock := prod.stock - q1 }
      h2 hfp2 (by simpa using hs2)]
    rfl
  have hfin : purchase today db phone [(pid, q1), (pid, q2)]
      = (updateCustomerPoints
          (addPurchaseRow
            (updateStock
              (addPurchaseRow (updateStock db pid (prod.stock - q1))
              { phone := phone, item := prod.name, category := prod.category,
                quantity := q1, amount := prod.price * (q1 : Rat) })
              pid (prod.stock - q1 - q2))
            { phone := phone, item := prod.name, category := prod.category,
              quantity := q2, amount := prod.price * (q2 : Rat) })
          phone
          (cust.points +
            if is_event_week today cust.dob || is_event_week today cust.anniversary
            then (prod.price * (q1 : Rat) + (prod.price * (q2 : Rat) + 0)) / 10000 * (3 / 2) * 5
            else (prod.price * (q1 : Rat) + (prod.price * (q2 : Rat) + 0)) / 10000 * (3 / 2)),
         Except.ok (prod.price * (q1 : Rat) + (prod.price * (q2 : Rat) + 0),
            if is_event_week today cust.dob || is_event_week today cust.anniversary
            then (prod.price * (q1 : Rat) + (prod.price * (q2 : Rat) + 0)) / 10000 * (3 / 2) * 5
            else (prod.price * (q1 : Rat) + (prod.price * (q2 : Rat) + 0)) / 10000 * (3 / 2))) := by
    simp only [purchase]
    split
    next hc2 => rw [hc2] at hc; cases hc
    next cust2 hc2 =>
      rw [hc] at hc2
      injection hc2 with hcc
      subst hcc
      rw [hpl]
  have hstock : stockOf
      (updateCustomerPoints
          (addPurchaseRow
            (updateStock
              (addPurchaseRow (updateStock db pid (prod.stock - q1))
              { phone := phone, item := prod.name, category := prod.category,
                quantity := q1, amount := prod.price * (q1 : Rat) })
              pid (prod.stock - q1 - q2))
            { phone := phone, item := prod.name, category := prod.category,
              quantity := q2, amount := prod.price * (q2 : Rat) })
          phone
          (cust.points +
            if is_event_week today cust.dob || is_event_week today cust.anniversary
            then (prod.price * (q1 : Rat) + (prod.price * (q2 : Rat) + 0)) / 10000 * (3 / 2) * 5
            else (prod.price * (q1 : Rat) + (prod.price * (q2 : Rat) + 0)) / 10000 * (3 / 2)))
      pid = some (prod.stock - q1 - q2) := by
    rw [stockOf_updatePoints]
    unfold stockOf
    rw [findProduct_addRow]
    rw [findProduct_updateStock_self _ pid { prod with stock := prod.stock - q1 } _ hfp2]
    rfl
  exact ⟨_, _, hfin, hstock⟩

theorem duplicate_lines_processed_witness :
    ∃ dbf pts, purchase 0 dbC2 "9876543210" [(1, 2), (1, 2)]
        = (dbf, Except.ok (prodC2.price * ((2 : Int) : Rat)
            + (prodC2.price * ((2 : Int) : Rat) + 0), pts))
      ∧ stockOf dbf 1 = some (prodC2.stock - 2 - 2) :=
  duplicate_lines_processed 0 dbC2 "9876543210" custC2 prodC2 1 2 2
    rfl rfl (by decide) (by decide) (by decide) (by decide)

/-- Claim C2 (counterexample): the request [(1, 2), (1, 2)] names product 1
twice, yet the checkout is not rejected: it succeeds and the stock of
product 1 drops from 5 to 1, so stock is not left unchanged. -/
theorem duplicate_lines_not_rejected_cex :
    (∃ r, (purchase 0 dbC2 "9876543210" [(1, 2), (1, 2)]).2 = Except.ok r)
    ∧ stockOf (purchase 0 dbC2 "9876543210" [(1, 2), (1, 2)]).1 1 = some 1 :=
  ⟨⟨_, rfl⟩, by rfl⟩

/-- Claim C4 (amended): after any sequence of successful checkouts and
restocks, the stock of a product equals its initial stock minus the sum of
the checked-out quantities plus the sum of the restock deltas; and when the
initial stock is nonnegative and every restock delta in the sequence is
nonnegative, the stock is also never negative at any point of the sequence.
(Unrestricted, the never-negative part fails: the restock handler accepts
negative deltas.) -/
theorem stock_accounting_and_nonneg (today : Int) (db : DB) (ops : List Op)
    (dbf : DB) (pid : Nat) (s : Int)
    (hs : stockOf db pid = some s)
    (hrun : applyOps today db ops = some dbf) :
    stockOf dbf pid = some (s - soldSum pid ops + restockSum pid ops)
    ∧ (0 ≤ s → (∀ op ∈ ops, nonnegDelta op = true) →
        ∀ l1 l2, ops = l1 ++ l2 →
          ∃ dbm sm, applyOps today db l1 = some dbm
            ∧ stockOf dbm pid = some sm ∧ 0 ≤ sm) := by
  constructor
  · exact applyOps_stock today pid ops db dbf s hrun hs
  · intro hge hnn l1 l2 hsplit
    subst hsplit
    obtain ⟨dbm, h1, h2⟩ := applyOps_append today l1 l2 db dbf hrun
    obtain ⟨sm, hsm, hsmge⟩ := applyOps_nonneg today pid l1 db dbm s h1 hs hge
      (fun op hm => hnn op (List.mem_append_left _ hm))
    exact ⟨dbm, sm, h1, hsm, hsmge⟩

theorem stock_accounting_and_nonneg_witness :
    stockOf ((applyOps 0 dbC4w opsC4).get (by rfl)) 1
        = some (10 - soldSum 1 opsC4 + restockSum 1 opsC4)
    ∧ ∃ dbm sm, applyOps 0 dbC4w [Op.checkout "9123456789" [(1, 3)]] = some dbm
        ∧ stockOf dbm 1 = some sm ∧ 0 ≤ sm :=
  ⟨(stock_accounting_and_nonneg 0 dbC4w opsC4 ((applyOps 0 dbC4w opsC4).get (by rfl))
      1 10 rfl (Option.some_get (by rfl)).symm).1,
   (stock_accounting_and_nonneg 0 dbC4w opsC4 ((applyOps 0 dbC4w opsC4).get (by rfl))
      1 10 rfl (Option.some_get (by rfl)).symm).2 (by decide) (by decide)
     [Op.checkout "9123456789" [(1, 3)]] [Op.restockOp 1 4] rfl⟩

/-- Claim C4 (counterexample): the restock handler performs no sign check,
so the successful sequence consisting of the single restock of delta -3 on a
product with initial stock 0 ends with stock -3, which is negative; the
accounting equation 0 - 0 + (-3) = -3 still holds, but the never-negative
part of the claim fails. -/
theorem negative_restock_negative_stock_cex :
    (applyOps 0 dbC4 [Op.restockOp 1 (-3)]).map (fun d => stockOf d 1)
        = some (some (-3))
    ∧ ((-3 : Int) < 0) :=
  ⟨rfl, by decide⟩

/-- Claim C8: the add_staff INSERT names the nonexistent column `username`
(the staff table defines `email`), so every registration attempt raises and
is reported as "Staff already exists"; no account is ever created, and
authenticating afterwards behaves exactly as if the registration had never
happened — in particular register followed by authenticate with the same
credentials does not succeed for a previously unknown email. -/
theorem add_staff_insert_fails (db : DB) (username pw role email pw2 : String) :
    add_staff db username pw role = (db, Except.error "Staff already exists")
    ∧ login (add_staff db username pw role).1 email pw2 = login db email pw2 := by
  have h : add_staff db username pw role = (db, Except.error "Staff already exists") := by
    simp [add_staff, addStaffInsertColumns, staffTableColumns]
  exact ⟨h, by rw [h]⟩
